import Mathlib

/-!
Verification of the `coiiot_client` agent SDK (modules `utils.py`, `common.py`,
`http.py`, `mqtt.py`) against its natural-language specification.

Inputs to the decoders are JSON values as produced by `json.loads`; they are
modelled by `JVal`.  Python-level outcomes are modelled by `Except PyErr`:
`PyErr.exc kind msg` is a raised instance of the caller-supplied exception
class (`exception(msg)`), while `attributeError` / `typeError` model Python
built-in errors escaping from operations such as `.get` on a non-dict or
iteration over a non-iterable.  Instants (`datetime` values) are represented
by the integer microsecond count they were decoded from; the floating-point
`fromtimestamp`/`timestamp` arithmetic itself is outside this embedding.
-/

set_option autoImplicit false

/-- JSON values, the inputs of every `from_dict` decoder.  Objects keep their
fields as an association list in insertion order; JSON numbers are restricted
to the integers, which is the only numeric shape the decoded protocol fields
use. -/
inductive JVal where
  | null
  | bool (b : Bool)
  | num (n : Int)
  | str (s : String)
  | arr (elems : List JVal)
  | obj (fields : List (String × JVal))
deriving Repr

/-- The exception classes that call sites of the decoders pass as the
`exception` argument. -/
inductive ExcKind where
  | parseError
  | improperlyConfigurationError
  | improperlyCommandFormatError
  | keyError
deriving Repr, DecidableEq

/-- Outcome of running a piece of Python: either a raised instance of the
caller-supplied exception class carrying its message, or a Python built-in
error (`AttributeError` from `.get` on a non-dict, `TypeError` from iterating
a non-iterable or using an unhashable dict key).  `fuelOut` is an artefact of
the fuel-based embedding of the recursive `Tag.from_dict`; it never occurs
when the decoder is run with its actual fuel. -/
inductive PyErr where
  | exc (kind : ExcKind) (msg : String)
  | attributeError
  | typeError
  | fuelOut
deriving Repr, DecidableEq

/-- Lookup of a key in the field list of a JSON object (Python dict access:
keys of a parsed object are unique). -/
def lookupField : List (String × JVal) → String → Option JVal
  | [], _ => none
  | (k, v) :: rest, key => if k = key then some v else lookupField rest key

/-- `collection.get(key)`: `none` both when the key is absent and when it is
bound to JSON `null` (Python `None`); an `AttributeError` when the receiver is
not a dict. -/
def jget (collection : JVal) (key : String) : Except PyErr (Option JVal) :=
  match collection with
  | .obj fields =>
      match lookupField fields key with
      | some .null => .ok none
      | some v => .ok (some v)
      | none => .ok none
  | _ => .error .attributeError

/-- The message of `utils.get_value_or_error`. -/
def missingKeyMsg (key name : String) : String :=
  "Key \"" ++ key ++ "\" missing in " ++ name

/-- `utils.get_value_or_error`: strict extraction of a required field; raises
the caller-supplied exception when the key is absent or bound to null. -/
def get_value_or_error (collection : JVal) (key name : String) (exception : ExcKind) :
    Except PyErr JVal := do
  match ← jget collection key with
  | none => .error (.exc exception (missingKeyMsg key name))
  | some v => .ok v

/-- `utils.get_collection_value`: extraction of an optional collection field,
defaulting to the factory result (an empty list or dict at all call sites)
when the key is absent or null. -/
def get_collection_value (collection : JVal) (key : String) (defaultVal : JVal) :
    Except PyErr JVal := do
  match ← jget collection key with
  | some v => .ok v
  | none => .ok defaultVal

/-- Python `for x in v`: iteration over a JSON-derived value.  A list yields
its elements, a string its one-character substrings, a dict its keys; every
other value raises `TypeError`. -/
def pyIter : JVal → Except PyErr (List JVal)
  | .arr xs => .ok xs
  | .str s => .ok (s.data.map fun c => .str (String.mk [c]))
  | .obj fields => .ok (fields.map fun p => .str p.1)
  | _ => .error .typeError

/-- Whether a JSON-derived value is hashable in Python (usable as a dict
key): lists and dicts are not. -/
def jvalHashable : JVal → Bool
  | .arr _ => false
  | .obj _ => false
  | _ => true

mutual

/-- Python `repr` of a JSON-derived value, as used by `str` on containers. -/
def pyRepr : JVal → String
  | .null => "None"
  | .bool true => "True"
  | .bool false => "False"
  | .num n => toString n
  | .str s => "\x27" ++ s ++ "\x27"
  | .arr xs => "[" ++ pyReprList xs ++ "]"
  | .obj fields => "\x7b" ++ pyReprFields fields ++ "\x7d"

/-- Comma-separated `repr` of list elements. -/
def pyReprList : List JVal → String
  | [] => ""
  | [x] => pyRepr x
  | x :: y :: xs => pyRepr x ++ ", " ++ pyReprList (y :: xs)

/-- Comma-separated `repr` of dict entries. -/
def pyReprFields : List (String × JVal) → String
  | [] => ""
  | [(k, v)] => "\x27" ++ k ++ "\x27: " ++ pyRepr v
  | (k, v) :: p :: fields => "\x27" ++ k ++ "\x27: " ++ pyRepr v ++ ", " ++ pyReprFields (p :: fields)

end

/-- Python `str` of a JSON-derived value, as interpolated into f-strings. -/
def pyStr : JVal → String
  | .str s => s
  | v => pyRepr v

/-- An in-memory instant (`datetime`).  It is represented by the integer
microsecond count it was decoded from: every decode path in the SDK builds
instants via `dt_from_ts` on a wire integer, and no claim in this development
depends on the floating-point `fromtimestamp` arithmetic itself. -/
structure Instant where
  us : Int
deriving Repr, DecidableEq

/-- `utils.dt_from_ts` on an already-typed integer microsecond timestamp. -/
def dt_from_ts (ts : Int) : Instant :=
  ⟨ts⟩

/-- `dt_from_ts` applied to a raw JSON field value: Python accepts ints and
bools (a bool is an int) for the division `ts / 1000000.0` and raises
`TypeError` on anything else. -/
def dtFromTsJ : JVal → Except PyErr Instant
  | .num n => .ok (dt_from_ts n)
  | .bool b => .ok (dt_from_ts (if b then 1 else 0))
  | _ => .error .typeError

/-- `common.CommandStatus`. -/
inductive CommandStatus where
  | new
  | sending
  | sent
  | received
  | skipped
  | done
  | failed
deriving Repr, DecidableEq

/-- The wire token of a `CommandStatus` member (`member.value`). -/
def CommandStatus.value : CommandStatus → String
  | .new => "new"
  | .sending => "sending"
  | .sent => "sent"
  | .received => "received"
  | .skipped => "skipped"
  | .done => "done"
  | .failed => "failed"

/-- The fixed set of wire tokens of `CommandStatus`. -/
def statusTokens : List String :=
  ["new", "sending", "sent", "received", "skipped", "done", "failed"]

/-- Enum lookup by value, `CommandStatus(value)` on a string. -/
def CommandStatus.ofValue (s : String) : Option CommandStatus :=
  if s = "new" then some .new
  else if s = "sending" then some .sending
  else if s = "sent" then some .sent
  else if s = "received" then some .received
  else if s = "skipped" then some .skipped
  else if s = "done" then some .done
  else if s = "failed" then some .failed
  else none

/-- The message raised by `CommandStatus.from_string` on an unknown value,
rendered with Python `str` of the offending value. -/
def unknownStatusMsg (rendered : String) : String :=
  "parse command_status failed, value \x27" ++ rendered ++ "\x27 is unknown"

/-- `common.CommandStatus.from_string` on a string input. -/
def CommandStatus.from_string (value : String) (exception : ExcKind) :
    Except PyErr CommandStatus :=
  match CommandStatus.ofValue value with
  | some c => .ok c
  | none => .error (.exc exception (unknownStatusMsg value))

/-- `common.CommandStatus.from_string` on a raw JSON field value: enum lookup
by value fails (a `ValueError`, wrapped into the caller-supplied exception)
for every non-member, including every non-string. -/
def CommandStatus.fromValueJ (value : JVal) (exception : ExcKind) :
    Except PyErr CommandStatus :=
  match value with
  | .str s => CommandStatus.from_string s exception
  | v => .error (.exc exception (unknownStatusMsg (pyStr v)))

/-- A numeric view of a JSON scalar under Python comparison semantics:
`bool` is a subtype of `int` in Python, so `True == 1`. -/
def jvalAsInt : JVal → Option Int
  | .num n => some n
  | .bool b => some (if b then 1 else 0)
  | _ => none

/-- Python `==` on the hashable JSON scalars, the only values that reach a
dict-key comparison (unhashable values raise before being inserted). -/
def pyEq (a b : JVal) : Bool :=
  match jvalAsInt a, jvalAsInt b with
  | some x, some y => x == y
  | _, _ =>
    match a, b with
    | .null, .null => true
    | .str x, .str y => x == y
    | _, _ => false

/-- `common.TagType`. -/
structure TagType where
  id : JVal
  name : JVal
deriving Repr

/-- `common.TagType.from_dict`. -/
def TagType.from_dict (raw : JVal) (exception : ExcKind) : Except PyErr TagType := do
  let i ← get_value_or_error raw "id" "tag type input" exception
  let n ← get_value_or_error raw "name" "tag type input" exception
  .ok ⟨i, n⟩

/-- `common.Tag`.  The `children` dict is an association list in insertion
order, exactly as a Python dict preserves it. -/
inductive Tag where
  | mk (id : JVal) (name : JVal) (properties : JVal) (type : TagType)
      (attrs : JVal) (children : List (JVal × Tag)) (driver_config : JVal)

/-- The `id` field of a `Tag`. -/
def Tag.id : Tag → JVal
  | .mk i _ _ _ _ _ _ => i

/-- The `name` field of a `Tag`. -/
def Tag.name : Tag → JVal
  | .mk _ n _ _ _ _ _ => n

/-- The `children` field of a `Tag`. -/
def Tag.children : Tag → List (JVal × Tag)
  | .mk _ _ _ _ _ c _ => c

/-- Python dict assignment `m[k] = v`: if a key equal (under Python `==`) to
`k` is present, its value is replaced in place and the original key object is
kept at its original position; otherwise the pair is appended.  A dict holds
at most one entry per key, so the map below touches at most one entry. -/
def dictInsert (m : List (JVal × Tag)) (k : JVal) (v : Tag) : List (JVal × Tag) :=
  if m.any fun p => pyEq p.1 k then
    m.map fun p => if pyEq p.1 k then (p.1, v) else p
  else m ++ [(k, v)]

/-- The `for raw_tag in ...` loop of `Tag.from_dict`: decode each child with
the given decoder, then store it under its own `name` (`children[tag.name] =
tag`); an unhashable name raises `TypeError` at the assignment. -/
def tagChildrenFold (dec : JVal → Except PyErr Tag) :
    List JVal → List (JVal × Tag) → Except PyErr (List (JVal × Tag))
  | [], acc => .ok acc
  | rawTag :: rest, acc => do
      let t ← dec rawTag
      if jvalHashable t.name then
        tagChildrenFold dec rest (dictInsert acc t.name t)
      else
        .error .typeError

/-- `common.Tag.from_dict`, fuel-indexed.  One fuel unit is consumed per
nesting level; `Tag.from_dict` below supplies more fuel than any input can
consume, so `fuelOut` is unreachable from the wrapper.  The field extraction
order matches the source: the children loop runs first, then the constructor
arguments are evaluated in the order `id`, `name`, `type`, `properties`,
`attrs`, `driver_config`. -/
def tagFromDictGo : Nat → JVal → ExcKind → Except PyErr Tag
  | 0, _, _ => .error .fuelOut
  | fuel + 1, raw, exception => do
      let rawChildren ← get_collection_value raw "children" (.arr [])
      let rawTags ← pyIter rawChildren
      let children ← tagChildrenFold (fun x => tagFromDictGo fuel x exception) rawTags []
      let i ← get_value_or_error raw "id" "tag input" exception
      let n ← get_value_or_error raw "name" "tag input" exception
      let rawType ← get_value_or_error raw "type" "tag input" exception
      let ty ← TagType.from_dict rawType exception
      let props ← get_value_or_error raw "properties" "tag input" exception
      let attrs ← get_collection_value raw "attrs" (.obj [])
      let dcfg ← get_collection_value raw "driver_config" (.obj [])
      .ok (.mk i n props ty attrs children dcfg)

mutual

/-- Structural size of a JSON value, used as decoder fuel: it strictly
exceeds the nesting depth of the value. -/
def jvalSize : JVal → Nat
  | .null => 1
  | .bool _ => 1
  | .num _ => 1
  | .str _ => 1
  | .arr xs => jvalSizeList xs + 1
  | .obj fields => jvalSizeFields fields + 1

/-- Sum of `jvalSize` over array elements. -/
def jvalSizeList : List JVal → Nat
  | [] => 0
  | x :: xs => jvalSize x + jvalSizeList xs

/-- Sum of `jvalSize` over object field values. -/
def jvalSizeFields : List (String × JVal) → Nat
  | [] => 0
  | (_, v) :: fs => jvalSize v + jvalSizeFields fs

end

/-- `common.Tag.from_dict`. -/
def Tag.from_dict (raw : JVal) (exception : ExcKind) : Except PyErr Tag :=
  tagFromDictGo (jvalSize raw + 1) raw exception

mutual

/-- The tree invariant of claim C8: at every depth, each children key equals
(under Python `==`, the dict's own key equality) the `name` field of the tag
it maps to. -/
def tagWF : Tag → Bool
  | .mk _ _ _ _ _ children _ => tagListWF children

/-- `tagWF` over a children association list. -/
def tagListWF : List (JVal × Tag) → Bool
  | [] => true
  | (k, t) :: rest => pyEq k t.name && tagWF t && tagListWF rest

end

/-- Decode every element of a list in order, propagating the first failure:
the embedding of a Python list comprehension over a decoder. -/
def decodeAll {α : Type} (dec : JVal → Except PyErr α) : List JVal → Except PyErr (List α)
  | [] => .ok []
  | x :: xs => do
      let v ← dec x
      let rest ← decodeAll dec xs
      .ok (v :: rest)

/-- `common.LogLevel`. -/
inductive LogLevel where
  | debug
  | info
  | warn
  | error
  | fatal
deriving Repr, DecidableEq

/-- The integer value of a `LogLevel` member. -/
def LogLevel.value : LogLevel → Int
  | .debug => 1
  | .info => 2
  | .warn => 3
  | .error => 4
  | .fatal => 5

/-- `common.LogRecord`. -/
structure LogRecord where
  level : LogLevel
  message : String
deriving Repr, DecidableEq

/-- `common.LogRecord.to_dict`. -/
def LogRecord.to_dict (r : LogRecord) : JVal :=
  .obj [("level", .num r.level.value), ("message", .str r.message)]

namespace Http

/-- The transport error taxonomy of `http.py`: `BadParamsError`,
`UnauthorizedError`, `NotFoundError` and `InternalServerError` carry the
response body; the generic `HTTPError` carries a formatted message. -/
inductive HttpFailure where
  | badParams (body : String)
  | unauthorized (body : String)
  | notFound (body : String)
  | internalServer (body : String)
  | httpError (msg : String)
deriving Repr, DecidableEq

/-- The successful result of `Client._do_request`: the dict
`{"status": resp.status, "text": response}`. -/
structure DoResponse where
  status : Nat
  text : String
deriving Repr, DecidableEq

/-- The message of the generic `HTTPError` raised on an unexpected status
(note the trailing space, as in the source f-string). -/
def unexpectedStatusMsg (url : String) (status : Nat) (response : String) : String :=
  "\x27" ++ url ++ "\x27 returns unexpected status code \x27" ++ toString status ++
    "\x27 with body \x27" ++ response ++ "\x27 "

/-- The response-status dispatch of `http.Client._do_request`: the outcome of
an exchange as a function of the response status code and body text. -/
def doRequestDispatch (url : String) (status : Nat) (response : String) :
    Except HttpFailure DoResponse :=
  if status = 200 then .ok ⟨status, response⟩
  else if status = 400 then .error (.badParams response)
  else if status = 401 then .error (.unauthorized response)
  else if status = 404 then .error (.notFound response)
  else if status = 500 then .error (.internalServer response)
  else .error (.httpError (unexpectedStatusMsg url status response))

/-- `http.CommandTag`: the wire key `tag_id` is mapped to the in-memory
field `id`. -/
structure CommandTag where
  id : JVal
  value : JVal
deriving Repr

/-- `http.CommandTag.from_dict`. -/
def CommandTag.from_dict (raw : JVal) (exception : ExcKind) : Except PyErr CommandTag := do
  let i ← get_value_or_error raw "tag_id" "command tag input" exception
  let v ← get_value_or_error raw "value" "command tag input" exception
  .ok ⟨i, v⟩

/-- `http.CommandExtended`. -/
structure CommandExtended where
  id : JVal
  tags : List CommandTag
  created_at : Instant
  updated_at : Instant
  status : CommandStatus
  reason : Option JVal
deriving Repr

/-- `http.CommandExtended.from_dict`: the five required fields are extracted
first, then the constructor arguments are evaluated in source order (tags
comprehension, `dt_from_ts` on both timestamps, status decode, optional
`reason`). -/
def CommandExtended.from_dict (raw : JVal) (exception : ExcKind) :
    Except PyErr CommandExtended := do
  let cmdId ← get_value_or_error raw "id" "command extended input" exception
  let tags ← get_value_or_error raw "tags" "command extended input" exception
  let createdAt ← get_value_or_error raw "created_at" "command extended input" exception
  let updatedAt ← get_value_or_error raw "updated_at" "command extended input" exception
  let status ← get_value_or_error raw "status" "command extended input" exception
  let rawTags ← pyIter tags
  let tagVals ← decodeAll (CommandTag.from_dict · exception) rawTags
  let createdI ← dtFromTsJ createdAt
  let updatedI ← dtFromTsJ updatedAt
  let statusV ← CommandStatus.fromValueJ status exception
  let reason ← jget raw "reason"
  .ok ⟨cmdId, tagVals, createdI, updatedI, statusV, reason⟩

/-- `http.DeviceCommand`. -/
structure DeviceCommand where
  device_id : JVal
  command : CommandExtended
deriving Repr

/-- `http.DeviceCommand.from_dict`. -/
def DeviceCommand.from_dict (raw : JVal) (exception : ExcKind) :
    Except PyErr DeviceCommand := do
  let deviceId ← get_value_or_error raw "device_id" "device_command input" exception
  let cmd ← get_value_or_error raw "command" "device_command input" exception
  let command ← CommandExtended.from_dict cmd exception
  .ok ⟨deviceId, command⟩

/-- `http.AgentDevicesCommands`. -/
structure AgentDevicesCommands where
  command : Option CommandExtended
  devices : List DeviceCommand
deriving Repr

/-- `http.AgentDevicesCommands.from_dict`. -/
def AgentDevicesCommands.from_dict (raw : JVal) (exception : ExcKind) :
    Except PyErr AgentDevicesCommands := do
  let cmdOpt ← jget raw "command"
  let command ←
    match cmdOpt with
    | some c => do
        let v ← CommandExtended.from_dict c exception
        .ok (some v)
    | none => .ok none
  let devices ← get_value_or_error raw "devices" "agent_devices_commands input" exception
  let rawDevs ← pyIter devices
  let devVals ← decodeAll (DeviceCommand.from_dict · exception) rawDevs
  .ok ⟨command, devVals⟩

/-- The JSON body of `http.Client.send_logs`: a JSON array of
`rec.to_dict()` per record, in input order. -/
def sendLogsBody (records : List LogRecord) : JVal :=
  .arr (records.map LogRecord.to_dict)

end Http

namespace Mqtt

/-- The pub/sub transport failure of `mqtt.py`. -/
inductive MqttFailure where
  | subscriptionError
deriving Repr, DecidableEq

/-- The topic `mqtt.Client.run` subscribes to. -/
def subscribeTopic (agentId : Int) : String :=
  "iot/cmd/agent/" ++ toString agentId ++ "/fmt/json"

/-- The acknowledgement check of `mqtt.Client.run`: the outcome of `run` as a
function of the return code the broker answered the subscribe request with
(the MQTT subscription-failure acknowledgement code is `0x80`). -/
def runOutcome (retCode : Nat) : Except MqttFailure Unit :=
  if retCode = 0x80 then .error .subscriptionError else .ok ()

/-- `mqtt.CommandTag`: unlike the request/response variant, the wire key of
the id is `id`. -/
structure CommandTag where
  id : JVal
  value : JVal
deriving Repr

/-- `mqtt.CommandTag.from_dict`. -/
def CommandTag.from_dict (raw : JVal) (exception : ExcKind) : Except PyErr CommandTag := do
  let i ← get_value_or_error raw "id" "command tag input" exception
  let v ← get_value_or_error raw "value" "command tag input" exception
  .ok ⟨i, v⟩

/-- `mqtt.Command`. -/
structure Command where
  id : JVal
  tags : List CommandTag
  timestamp : Instant
deriving Repr

/-- `mqtt.Command.from_dict`: the three required fields are extracted first
(`id`, `tags`, `timestamp`), then the tags comprehension and `dt_from_ts`
run. -/
def Command.from_dict (raw : JVal) (exception : ExcKind) : Except PyErr Command := do
  let cmdId ← get_value_or_error raw "id" "command input" exception
  let tags ← get_value_or_error raw "tags" "command input" exception
  let timestamp ← get_value_or_error raw "timestamp" "command input" exception
  let rawTags ← pyIter tags
  let tagVals ← decodeAll (CommandTag.from_dict · exception) rawTags
  let ts ← dtFromTsJ timestamp
  .ok ⟨cmdId, tagVals, ts⟩

/-- `mqtt.DeviceCommand`. -/
structure DeviceCommand where
  device_id : JVal
  command : Command
deriving Repr

/-- `mqtt.DeviceCommand.from_dict`. -/
def DeviceCommand.from_dict (raw : JVal) (exception : ExcKind) :
    Except PyErr DeviceCommand := do
  let deviceId ← get_value_or_error raw "device_id" "device_command input" exception
  let cmd ← get_value_or_error raw "command" "device_command input" exception
  let command ← Command.from_dict cmd exception
  .ok ⟨deviceId, command⟩

/-- `mqtt.CommandMessage`. -/
structure CommandMessage where
  command : Option Command
  devices : List DeviceCommand
deriving Repr

/-- `mqtt.CommandMessage.from_dict`. -/
def CommandMessage.from_dict (raw : JVal) (exception : ExcKind) :
    Except PyErr CommandMessage := do
  let cmdOpt ← jget raw "command"
  let command ←
    match cmdOpt with
    | some c => do
        let v ← Command.from_dict c exception
        .ok (some v)
    | none => .ok none
  let devices ← get_value_or_error raw "devices" "command message input" exception
  let rawDevs ← pyIter devices
  let devVals ← decodeAll (DeviceCommand.from_dict · exception) rawDevs
  .ok ⟨command, devVals⟩

/-- One step of `mqtt.Client.incoming_commands`: the decode applied to each
delivered payload, with `ImproperlyCommandFormatError` as the parse error
kind.  An error here propagates out of the generator instead of yielding a
`CommandMessage`. -/
def incomingDecode (payload : JVal) : Except PyErr CommandMessage :=
  CommandMessage.from_dict payload .improperlyCommandFormatError

/-- The JSON encoding of one `LogRecord` namedtuple as `simplejson.dumps`
produces it inside `mqtt.Client.send_logs`: with simplejson's default
`namedtuple_as_object=True`, a namedtuple serializes as an object from
`_asdict()`, i.e. its fields in declaration order (`level`, `message`), the
`IntEnum` level as its integer value.  The repository's own
`test_send_logs` pins this encoding. -/
def namedtupleJson (r : LogRecord) : JVal :=
  .obj [("level", .num r.level.value), ("message", .str r.message)]

/-- The JSON payload of `mqtt.Client.send_logs`: `json.dumps(records)` over
the list of namedtuples, in input order. -/
def sendLogsPayload (records : List LogRecord) : JVal :=
  .arr (records.map namedtupleJson)

end Mqtt

/-! Concrete inputs used by the claim theorems. -/

/-- The agent-level command object of the `get_commands` scenario of C1. -/
def c1CommandRaw : JVal :=
  .obj [("id", .str "some-id"), ("status", .str "new"),
        ("tags", .arr [.obj [("tag_id", .num 1), ("value", .bool true)]]),
        ("created_at", .num 1577826000000000), ("updated_at", .num 1577826000000000)]

/-- The full `get_commands` response body of C1: the agent-level command plus
one device entry with `device_id = 1` carrying the same command. -/
def c1Raw : JVal :=
  .obj [("command", c1CommandRaw),
        ("devices", .arr [.obj [("device_id", .num 1), ("command", c1CommandRaw)]])]

/-- The decoded agent-level command of the C1 scenario. -/
def c1Command : Http.CommandExtended :=
  ⟨.str "some-id", [⟨.num 1, .bool true⟩], ⟨1577826000000000⟩, ⟨1577826000000000⟩,
    CommandStatus.new, none⟩

/-- A tag type object shared by the C10 input. -/
def c10TypeRaw : JVal := .obj [("id", .num 5), ("name", .str "t")]

/-- First child of the C10 input, named `dup`. -/
def c10ChildA : JVal :=
  .obj [("id", .num 10), ("name", .str "dup"), ("type", c10TypeRaw), ("properties", .obj [])]

/-- Second child of the C10 input, also named `dup`. -/
def c10ChildB : JVal :=
  .obj [("id", .num 11), ("name", .str "dup"), ("type", c10TypeRaw), ("properties", .obj [])]

/-- The C10 input: a tag whose `children` list has two entries with the same
`name`. -/
def c10Raw : JVal :=
  .obj [("id", .num 1), ("name", .str "root"), ("type", c10TypeRaw), ("properties", .obj []),
        ("children", .arr [c10ChildA, c10ChildB])]

/-- The decoded second child of the C10 input. -/
def c10TagB : Tag :=
  .mk (.num 11) (.str "dup") (.obj []) ⟨.num 5, .str "t"⟩ (.obj []) [] (.obj [])

/-- The C4 counterexample input: a tag object without `id` whose only child
has an `id` but no `name`. -/
def c4CexRaw : JVal :=
  .obj [("children", .arr [.obj [("id", .num 1)]])]

/-- The C6 counterexample input: a payload without `devices` whose `command`
field is a number rather than an object. -/
def c6CexRaw : JVal :=
  .obj [("command", .num 5)]

/-- A small well-formed tag input with one child, used to instantiate C8. -/
def c8Raw : JVal :=
  .obj [("id", .num 1), ("name", .str "root"),
        ("type", .obj [("id", .num 2), ("name", .str "ty")]), ("properties", .obj []),
        ("children", .arr [.obj [("id", .num 3), ("name", .str "ch"),
          ("type", .obj [("id", .num 2), ("name", .str "ty")]), ("properties", .obj [])]])]

/-- The decoded form of `c8Raw`. -/
def c8Tag : Tag :=
  .mk (.num 1) (.str "root") (.obj []) ⟨.num 2, .str "ty"⟩ (.obj [])
    [(.str "ch", .mk (.num 3) (.str "ch") (.obj []) ⟨.num 2, .str "ty"⟩ (.obj []) [] (.obj []))]
    (.obj [])

/-! Helper lemmas shared by the claim proofs. -/

/-- Decomposition of a successful `Except` bind. -/
theorem except_bind_ok {ε α β : Type} {x : Except ε α} {f : α → Except ε β} {b : β} :
    x >>= f = Except.ok b ↔ ∃ a, x = Except.ok a ∧ f a = Except.ok b := by
  cases x <;> simp [Bind.bind, Except.bind]

/-- `get_value_or_error` on an object whose key is absent or bound to null
raises the caller-supplied exception with the message naming the key and the
enclosing structure. -/
theorem get_value_or_error_missing (fields : List (String × JVal)) (key name : String)
    (exception : ExcKind)
    (h : lookupField fields key = none ∨ lookupField fields key = some .null) :
    get_value_or_error (.obj fields) key name exception =
      .error (.exc exception (missingKeyMsg key name)) := by
  rcases h with h | h <;> simp [get_value_or_error, jget, h, Bind.bind, Except.bind]

/-- Every failure of `get_value_or_error` on an object is a raised instance
of the caller-supplied exception class with the missing-key message. -/
theorem get_value_or_error_error_shape {fields : List (String × JVal)} {key name : String}
    {exception : ExcKind} {e : PyErr}
    (h : get_value_or_error (.obj fields) key name exception = .error e) :
    e = .exc exception (missingKeyMsg key name) := by
  simp only [get_value_or_error, jget, Bind.bind, Except.bind] at h
  rcases hl : lookupField fields key with _ | v
  · rw [hl] at h
    simp at h
    exact h.symm
  · rw [hl] at h
    cases v <;> simp at h
    exact h.symm

/-! Claim theorems. -/

/-- C1: decoding the `get_commands` response body with one agent-level
command (`id="some-id"`, `status="new"`, one tag `{tag_id:1,value:true}`,
`created_at`/`updated_at` = 1577826000000000) and one device entry with
`device_id = 1` carrying the same command yields an `AgentDevicesCommands`
whose `command.status` is the `new` enum member, whose `command.tags[0]` is
the `CommandTag` with `id = 1` (the wire key `tag_id` mapped to `id`) and
`value = true`, and whose `devices[0].device_id` equals 1. -/
theorem C1_get_commands_scenario :
    ∃ adc cmd, Http.AgentDevicesCommands.from_dict c1Raw .parseError = .ok adc ∧
      adc.command = some cmd ∧
      cmd.status = CommandStatus.new ∧
      cmd.tags.head? = some ⟨.num 1, .bool true⟩ ∧
      (adc.devices.head?.map Http.DeviceCommand.device_id) = some (.num 1) :=
  ⟨_, _, rfl, rfl, rfl, rfl, rfl⟩

/-- C10: a `Tag` input whose `children` list has two entries with the same
`name` decodes without error, and the resulting children map holds only the
later entry under that name — one entry where the raw input had two. -/
theorem C10_duplicate_child_names :
    ∃ t, Tag.from_dict c10Raw .parseError = .ok t ∧
      t.children = [(.str "dup", c10TagB)] ∧
      t.children.length = 1 ∧
      c10TagB.id = .num 11 :=
  ⟨_, rfl, rfl, rfl, rfl⟩

/-- C3: every token of the fixed status set decodes to a member whose value
is the same token (an exact round-trip), and every string outside the set is
rejected with the caller-supplied parse error naming the unknown value. -/
theorem C3_command_status_round_trip (s : String) (exception : ExcKind) :
    (s ∈ statusTokens → ∃ c, CommandStatus.from_string s exception = .ok c ∧ c.value = s) ∧
    (s ∉ statusTokens →
      CommandStatus.from_string s exception = .error (.exc exception (unknownStatusMsg s))) := by
  constructor
  · intro hs
    simp only [statusTokens, List.mem_cons, List.not_mem_nil, or_false] at hs
    rcases hs with rfl | rfl | rfl | rfl | rfl | rfl | rfl <;> exact ⟨_, rfl, rfl⟩
  · intro hs
    simp only [statusTokens, List.mem_cons, List.not_mem_nil, or_false, not_or] at hs
    obtain ⟨h1, h2, h3, h4, h5, h6, h7⟩ := hs
    simp [CommandStatus.from_string, CommandStatus.ofValue, h1, h2, h3, h4, h5, h6, h7]

/-- Witness for C3 at the token `done`. -/
theorem C3_witness :
    ∃ c, CommandStatus.from_string "done" .parseError = .ok c ∧ c.value = "done" :=
  (C3_command_status_round_trip "done" .parseError).1 (by simp [statusTokens])

/-- C2: the outcome of a `_do_request` exchange is exactly determined by the
response status code — 200 returns the body text as the payload, 400/401/
404/500 raise the bad-parameters, unauthorized, not-found and
internal-server errors carrying the body, and any other status raises the
generic HTTP error whose message contains both the status code and the
body. -/
theorem C2_do_request_status_mapping (url : String) (status : Nat) (body : String) :
    (status = 200 → Http.doRequestDispatch url status body = .ok ⟨200, body⟩) ∧
    (status = 400 → Http.doRequestDispatch url status body = .error (.badParams body)) ∧
    (status = 401 → Http.doRequestDispatch url status body = .error (.unauthorized body)) ∧
    (status = 404 → Http.doRequestDispatch url status body = .error (.notFound body)) ∧
    (status = 500 → Http.doRequestDispatch url status body = .error (.internalServer body)) ∧
    (status ∉ ([200, 400, 401, 404, 500] : List Nat) →
      ∃ pre mid post, Http.doRequestDispatch url status body =
        .error (.httpError (pre ++ (toString status ++ (mid ++ (body ++ post)))))) := by
  refine ⟨?_, ?_, ?_, ?_, ?_, ?_⟩
  · rintro rfl; rfl
  · rintro rfl; rfl
  · rintro rfl; rfl
  · rintro rfl; rfl
  · rintro rfl; rfl
  · intro h
    simp only [List.mem_cons, List.not_mem_nil, or_false, not_or] at h
    obtain ⟨h200, h400, h401, h404, h500⟩ := h
    refine ⟨"\x27" ++ url ++ "\x27 returns unexpected status code \x27",
      "\x27 with body \x27", "\x27 ", ?_⟩
    simp [Http.doRequestDispatch, Http.unexpectedStatusMsg, h200, h400, h401, h404, h500,
      String.append_assoc]

/-- Witness for C2 at a successful exchange. -/
theorem C2_witness : Http.doRequestDispatch "u" 200 "b" = .ok ⟨200, "b"⟩ :=
  (C2_do_request_status_mapping "u" 200 "b").1 rfl

/-- C7: `run` subscribes to `iot/cmd/agent/{agent_id}/fmt/json`, and a
broker acknowledgement of `0x80` makes it raise `SubscriptionError`, so a
successful (streaming) outcome is only possible when the acknowledgement is
not `0x80`. -/
theorem C7_subscription_rejection :
    (∀ agentId : Int,
      Mqtt.subscribeTopic agentId = "iot/cmd/agent/" ++ toString agentId ++ "/fmt/json") ∧
    Mqtt.runOutcome 0x80 = .error .subscriptionError ∧
    (∀ retCode : Nat, Mqtt.runOutcome retCode = .ok () → retCode ≠ 0x80) := by
  refine ⟨fun _ => rfl, rfl, fun retCode h => ?_⟩
  intro hEq
  subst hEq
  simp [Mqtt.runOutcome] at h

/-- Witness for C7 at acknowledgement code 0. -/
theorem C7_witness : (0 : Nat) ≠ 0x80 :=
  C7_subscription_rejection.2.2 0 rfl

/-- C9: for every list of log records, the pub/sub `send_logs` payload (the
simplejson serialization of the namedtuples) equals the request/response
`send_logs` body (the serialization of `rec.to_dict()` per record): both are
a JSON array of objects with exactly the fields `level` (an integer in 1..5)
and `message`, in input order. -/
theorem C9_send_logs_equivalence (records : List LogRecord) :
    Mqtt.sendLogsPayload records = Http.sendLogsBody records ∧
    Http.sendLogsBody records =
      .arr (records.map fun r => .obj [("level", .num r.level.value), ("message", .str r.message)]) ∧
    (∀ r ∈ records, 1 ≤ r.level.value ∧ r.level.value ≤ 5) := by
  refine ⟨?_, rfl, ?_⟩
  · simp [Mqtt.sendLogsPayload, Http.sendLogsBody, Mqtt.namedtupleJson, LogRecord.to_dict]
  · rintro ⟨lvl, msg⟩ _
    cases lvl <;> simp [LogLevel.value]

/-- Witness for C9 at a singleton record list. -/
theorem C9_witness :
    1 ≤ (LogRecord.mk .debug "x").level.value ∧ (LogRecord.mk .debug "x").level.value ≤ 5 :=
  (C9_send_logs_equivalence [⟨.debug, "x"⟩]).2.2 ⟨.debug, "x"⟩ (by simp)

/-- Bind of a success in `Except`. -/
theorem except_ok_bind {ε α β : Type} (a : α) (f : α → Except ε β) :
    (Except.ok a : Except ε α) >>= f = f a := rfl

/-- Bind of a failure in `Except`. -/
theorem except_error_bind {ε α β : Type} (e : ε) (f : α → Except ε β) :
    (Except.error e : Except ε α) >>= f = Except.error e := rfl

/-- Python `==` is reflexive on hashable JSON scalars. -/
theorem pyEq_refl_of_hashable {v : JVal} (h : jvalHashable v = true) : pyEq v v = true := by
  cases v <;> simp_all [jvalHashable, pyEq, jvalAsInt]

/-- `tagListWF` distributes over append. -/
theorem tagListWF_append {a b : List (JVal × Tag)} :
    tagListWF (a ++ b) = (tagListWF a && tagListWF b) := by
  induction a with
  | nil => simp [tagListWF]
  | cons p rest ih =>
      obtain ⟨k, t⟩ := p
      simp [tagListWF, ih, Bool.and_assoc]

/-- Replacing the values of the entries whose key equals `t.name` by a
well-formed `t` preserves `tagListWF`. -/
theorem tagListWF_map_replace {t : Tag} (ht : tagWF t = true) :
    ∀ {m : List (JVal × Tag)}, tagListWF m = true →
      tagListWF (m.map fun p => if pyEq p.1 t.name then (p.1, t) else p) = true := by
  intro m
  induction m with
  | nil => intro _; simp [tagListWF]
  | cons p rest ih =>
      intro hm
      obtain ⟨k, t0⟩ := p
      simp only [tagListWF, Bool.and_eq_true] at hm
      obtain ⟨⟨hk, ht0⟩, hrest⟩ := hm
      by_cases hc : pyEq k t.name = true
      · rw [List.map_cons, if_pos hc]
        simp [tagListWF, hc, ht, ih hrest]
      · rw [List.map_cons, if_neg hc]
        simp [tagListWF, hk, ht0, ih hrest]

/-- Inserting a well-formed tag under its own (hashable) name preserves
`tagListWF`. -/
theorem tagListWF_insert {m : List (JVal × Tag)} {t : Tag}
    (hm : tagListWF m = true) (ht : tagWF t = true) (hh : jvalHashable t.name = true) :
    tagListWF (dictInsert m t.name t) = true := by
  unfold dictInsert
  split
  · exact tagListWF_map_replace ht hm
  · simp [tagListWF_append, hm, tagListWF, pyEq_refl_of_hashable hh, ht]

/-- The children loop preserves `tagListWF` when every decoded child is
well-formed. -/
theorem tagChildrenFold_wf {dec : JVal → Except PyErr Tag}
    (hdec : ∀ x u, dec x = .ok u → tagWF u = true) :
    ∀ {xs : List JVal} {acc res : List (JVal × Tag)},
      tagChildrenFold dec xs acc = .ok res → tagListWF acc = true → tagListWF res = true := by
  intro xs
  induction xs with
  | nil =>
      intro acc res h hacc
      simp only [tagChildrenFold, Except.ok.injEq] at h
      exact h ▸ hacc
  | cons x rest ih =>
      intro acc res h hacc
      simp only [tagChildrenFold] at h
      rw [except_bind_ok] at h
      obtain ⟨u, hu, hif⟩ := h
      by_cases hh : jvalHashable u.name = true
      · rw [if_pos hh] at hif
        exact ih hif (tagListWF_insert hacc (hdec x u hu) hh)
      · rw [if_neg hh] at hif
        simp at hif

/-- Every successful run of the fuel-indexed decoder produces a tree
satisfying the children-keyed-by-name invariant. -/
theorem tagFromDictGo_wf :
    ∀ (fuel : Nat) (raw : JVal) (exception : ExcKind) (t : Tag),
      tagFromDictGo fuel raw exception = .ok t → tagWF t = true := by
  intro fuel
  induction fuel with
  | zero =>
      intro raw exception t h
      simp [tagFromDictGo] at h
  | succ n ih =>
      intro raw exception t h
      simp only [tagFromDictGo] at h
      simp only [except_bind_ok, Except.ok.injEq] at h
      obtain ⟨cv, _, rawTags, _, children, hfold, i, _, nm, _, rawType, _, ty, _, props, _,
        attrs, _, dcfg, _, hmk⟩ := h
      subst hmk
      simp only [tagWF]
      exact tagChildrenFold_wf (fun x u hx => ih x exception u hx) hfold rfl

/-- C8: on every raw input on which `Tag.from_dict` succeeds, the resulting
tree satisfies, at every nesting depth, that each key of the children map
equals (under the dict's key equality) the `name` field of the tag it maps
to. -/
theorem C8_children_keyed_by_name (raw : JVal) (exception : ExcKind) (t : Tag)
    (h : Tag.from_dict raw exception = .ok t) : tagWF t = true :=
  tagFromDictGo_wf _ raw exception t h

/-- Witness for C8 at a concrete two-level input. -/
theorem C8_witness : tagWF c8Tag = true :=
  C8_children_keyed_by_name c8Raw .parseError c8Tag rfl

/-- C4 counterexample: the claim states that decoding a `Tag` input without
`id` raises the error with message `Key "id" missing in tag input`; on the
input whose only child has an `id` but no `name`, the children loop runs
first and the raised message names `name` instead. -/
theorem C4_counterexample :
    Tag.from_dict c4CexRaw .parseError =
      .error (.exc .parseError (missingKeyMsg "name" "tag input")) ∧
    Tag.from_dict c4CexRaw .parseError ≠
      .error (.exc .parseError (missingKeyMsg "id" "tag input")) := by
  constructor
  · rfl
  · intro h
    have h1 : Tag.from_dict c4CexRaw .parseError =
        .error (.exc .parseError (missingKeyMsg "name" "tag input")) := rfl
    have h2 := Except.error.inj (h1.symm.trans h)
    exact absurd h2 (by decide)

/-- C4 (amended): for every input map in which a required key is absent or
bound to null, the strict decoder raises the caller-specified error kind
with a message naming that key and the enclosing structure; a `Tag` input
without `id` never returns a (partially-populated) value, and when its
children decode successfully the raised error is exactly
`Key "id" missing in tag input`. -/
theorem C4_missing_required_key (fields : List (String × JVal)) (key name : String)
    (exception : ExcKind) :
    ((lookupField fields key = none ∨ lookupField fields key = some .null) →
      get_value_or_error (.obj fields) key name exception =
        .error (.exc exception (missingKeyMsg key name))) ∧
    ((lookupField fields "id" = none ∨ lookupField fields "id" = some .null) →
      (∀ t, Tag.from_dict (.obj fields) exception ≠ .ok t) ∧
      (∀ cv rawTags children,
        get_collection_value (.obj fields) "children" (.arr []) = .ok cv →
        pyIter cv = .ok rawTags →
        tagChildrenFold (fun x => tagFromDictGo (jvalSize (.obj fields)) x exception) rawTags []
          = .ok children →
        Tag.from_dict (.obj fields) exception =
          .error (.exc exception (missingKeyMsg "id" "tag input")))) := by
  constructor
  · exact fun h => get_value_or_error_missing fields key name exception h
  · intro hid
    have hmiss := get_value_or_error_missing fields "id" "tag input" exception hid
    constructor
    · intro t h
      simp only [Tag.from_dict, tagFromDictGo] at h
      simp only [except_bind_ok, Except.ok.injEq] at h
      obtain ⟨cv, _, rawTags, _, children, _, i, hi, _⟩ := h
      rw [hmiss] at hi
      exact Except.noConfusion hi
    · intro cv rawTags children hcv hit hfold
      simp only [tagFromDictGo] at hfold
      simp only [Tag.from_dict, tagFromDictGo, hcv, except_ok_bind, hit, hfold, hmiss,
        except_error_bind]

/-- Witness for C4 at a tag input with a `name` but no `id` and no
children. -/
theorem C4_witness :
    Tag.from_dict (.obj [("name", .str "x")]) .parseError =
      .error (.exc .parseError (missingKeyMsg "id" "tag input")) :=
  ((C4_missing_required_key [("name", .str "x")] "id" "tag input" .parseError).2
    (Or.inl rfl)).2 (.arr []) [] [] rfl rfl rfl

/-- C6 counterexample: the claim states that every payload lacking
`devices` raises `ImproperlyCommandFormatError`; on the payload whose
`command` field is the number 5, `Command.from_dict` calls `.get` on a
non-dict and the decode instead escapes with a Python `AttributeError`
(still yielding no `CommandMessage`). -/
theorem C6_counterexample :
    Mqtt.incomingDecode c6CexRaw = .error .attributeError ∧
    ¬ ∃ msg, Mqtt.incomingDecode c6CexRaw =
      .error (.exc .improperlyCommandFormatError msg) := by
  refine ⟨rfl, ?_⟩
  rintro ⟨msg, h⟩
  have h1 : Mqtt.incomingDecode c6CexRaw = .error .attributeError := rfl
  exact PyErr.noConfusion (Except.error.inj (h1.symm.trans h))

/-- C6 (amended): a payload whose command object lacks the required `tags`
key makes the `incoming_commands` decode raise the agent-command-format
parse error, and a payload lacking `devices` raises that error naming
`devices` provided its `command` field is absent, null, or itself decodes
successfully; in each case no `CommandMessage` is yielded. -/
theorem C6_malformed_command_payload (fields cfields : List (String × JVal)) :
    (lookupField fields "command" = some (.obj cfields) →
      (lookupField cfields "tags" = none ∨ lookupField cfields "tags" = some .null) →
      ∃ msg, Mqtt.incomingDecode (.obj fields) =
        .error (.exc .improperlyCommandFormatError msg)) ∧
    ((lookupField fields "devices" = none ∨ lookupField fields "devices" = some .null) →
      (lookupField fields "command" = none ∨ lookupField fields "command" = some .null ∨
        ∃ cv c, lookupField fields "command" = some cv ∧
          Mqtt.Command.from_dict cv .improperlyCommandFormatError = .ok c) →
      Mqtt.incomingDecode (.obj fields) =
        .error (.exc .improperlyCommandFormatError
          (missingKeyMsg "devices" "command message input"))) := by
  constructor
  · intro hcmd htags
    have htagsErr := get_value_or_error_missing cfields "tags" "command input"
      .improperlyCommandFormatError htags
    cases hi : get_value_or_error (.obj cfields) "id" "command input"
        .improperlyCommandFormatError with
    | error e =>
        have he := get_value_or_error_error_shape hi
        refine ⟨missingKeyMsg "id" "command input", ?_⟩
        subst he
        simp only [Mqtt.incomingDecode, Mqtt.CommandMessage.from_dict, jget, hcmd,
          except_ok_bind, Mqtt.Command.from_dict, hi, except_error_bind]
    | ok idv =>
        refine ⟨missingKeyMsg "tags" "command input", ?_⟩
        simp only [Mqtt.incomingDecode, Mqtt.CommandMessage.from_dict, jget, hcmd,
          except_ok_bind, Mqtt.Command.from_dict, hi, htagsErr, except_error_bind]
  · intro hdev hcmd
    have hdevErr := get_value_or_error_missing fields "devices" "command message input"
      .improperlyCommandFormatError hdev
    rcases hcmd with hc | hc | ⟨cv, c, hl, hdec⟩
    · simp only [Mqtt.incomingDecode, Mqtt.CommandMessage.from_dict, jget, hc,
        except_ok_bind, hdevErr, except_error_bind]
    · simp only [Mqtt.incomingDecode, Mqtt.CommandMessage.from_dict, jget, hc,
        except_ok_bind, hdevErr, except_error_bind]
    · cases cv with
      | null =>
          have hnull : Mqtt.Command.from_dict JVal.null .improperlyCommandFormatError =
              .error .attributeError := rfl
          rw [hnull] at hdec
          exact Except.noConfusion hdec
      | bool b =>
          simp only [Mqtt.incomingDecode, Mqtt.CommandMessage.from_dict, jget, hl,
            except_ok_bind, hdec, hdevErr, except_error_bind]
      | num n =>
          simp only [Mqtt.incomingDecode, Mqtt.CommandMessage.from_dict, jget, hl,
            except_ok_bind, hdec, hdevErr, except_error_bind]
      | str s =>
          simp only [Mqtt.incomingDecode, Mqtt.CommandMessage.from_dict, jget, hl,
            except_ok_bind, hdec, hdevErr, except_error_bind]
      | arr xs =>
          simp only [Mqtt.incomingDecode, Mqtt.CommandMessage.from_dict, jget, hl,
            except_ok_bind, hdec, hdevErr, except_error_bind]
      | obj fs =>
          simp only [Mqtt.incomingDecode, Mqtt.CommandMessage.from_dict, jget, hl,
            except_ok_bind, hdec, hdevErr, except_error_bind]

/-- Witness for C6 at a payload whose command object lacks `tags`. -/
theorem C6_witness :
    ∃ msg, Mqtt.incomingDecode (.obj [("command", .obj [("id", .str "x")])]) =
      .error (.exc .improperlyCommandFormatError msg) :=
  (C6_malformed_command_payload [("command", .obj [("id", .str "x")])] [("id", .str "x")]).1
    rfl (Or.inl rfl)
